import Mathlib

/-!
Verification of the zkFHE decryption-proof pipeline: a host
(src/decryption-proof/host/src/main.rs) that evaluates an FHE computation two
ways and a zero-knowledge guest (src/decryption-proof/methods/guest/src/main.rs)
that re-checks the result.  The host-to-guest channel, the guest verifier and
the receipt handling are embedded shallowly; external-library primitives that
the repository only calls (bincode codec, LWE decryption, cleartext
multiplication, the signed decomposer) are modelled from the spec, faithful to
its description of their interfaces.
-/

namespace ZkFHE

/-- The u64 modulus: all ciphertext/key coefficients live in `[0, 2^64)`. -/
def W : Nat := 2 ^ 64

/-! ## Byte codec (model of the bincode binary encoding)

`bincode` serializes a `u64` as 8 little-endian bytes and a `Vec<u64>` as a
`u64` length prefix followed by the elements. -/

/-- The `n` little-endian bytes of `x` (least significant byte first). -/
def toLEBytes : Nat → Nat → List Nat
  | 0, _ => []
  | n + 1, x => x % 256 :: toLEBytes n (x / 256)

/-- Read a little-endian byte list back into a natural number. -/
def fromLEBytes : List Nat → Nat
  | [] => 0
  | b :: bs => b + 256 * fromLEBytes bs

theorem toLEBytes_length (n x : Nat) : (toLEBytes n x).length = n := by
  induction n generalizing x with
  | zero => rfl
  | succ n ih => simp [toLEBytes, ih]

theorem fromLEBytes_toLEBytes (n x : Nat) :
    fromLEBytes (toLEBytes n x) = x % 256 ^ n := by
  induction n generalizing x with
  | zero =>
    simp only [toLEBytes, fromLEBytes, pow_zero]
    omega
  | succ n ih =>
    simp only [toLEBytes, fromLEBytes, ih]
    rw [pow_succ', Nat.mod_mul]

theorem fromLEBytes_toLEBytes_of_lt {n x : Nat} (h : x < 256 ^ n) :
    fromLEBytes (toLEBytes n x) = x := by
  rw [fromLEBytes_toLEBytes, Nat.mod_eq_of_lt h]

/-- Serialized form of a `u64` (bincode: 8 little-endian bytes). -/
def serializeU64 (x : Nat) : List Nat := toLEBytes 8 x

/-- Deserialize a `u64` from the first 8 bytes of a buffer. -/
def deserializeU64 (bs : List Nat) : Option Nat :=
  if 8 ≤ bs.length then some (fromLEBytes (bs.take 8)) else none

theorem take_toLEBytes_append (x : Nat) (rest : List Nat) :
    (toLEBytes 8 x ++ rest).take 8 = toLEBytes 8 x := by
  rw [List.take_append_of_le_length (by rw [toLEBytes_length])]
  rw [List.take_of_length_le (by rw [toLEBytes_length])]

theorem drop_toLEBytes_append (x : Nat) (rest : List Nat) :
    (toLEBytes 8 x ++ rest).drop 8 = rest := by
  rw [List.drop_append_of_le_length (by rw [toLEBytes_length])]
  rw [List.drop_of_length_le (by rw [toLEBytes_length]), List.nil_append]

theorem deserializeU64_serializeU64 {x : Nat} (h : x < W) (rest : List Nat) :
    deserializeU64 (serializeU64 x ++ rest) = some x := by
  unfold deserializeU64 serializeU64
  rw [if_pos (by simp [toLEBytes_length])]
  rw [take_toLEBytes_append, fromLEBytes_toLEBytes_of_lt (by simpa [W] using h)]

/-- Concatenated 8-byte little-endian encodings of a word list. -/
def u64WordsBytes : List Nat → List Nat
  | [] => []
  | x :: xs => toLEBytes 8 x ++ u64WordsBytes xs

/-- Read `n` 8-byte little-endian words, returning them and the remaining
bytes; fails when the buffer is too short. -/
def readU64Words : Nat → List Nat → Option (List Nat × List Nat)
  | 0, bs => some ([], bs)
  | n + 1, bs =>
    if 8 ≤ bs.length then
      match readU64Words n (bs.drop 8) with
      | some (ws, rest) => some (fromLEBytes (bs.take 8) :: ws, rest)
      | none => none
    else none

/-- Serialized form of a `Vec<u64>` (bincode: u64 length prefix, then the
elements, all little-endian). -/
def serializeVecU64 (v : List Nat) : List Nat :=
  toLEBytes 8 v.length ++ u64WordsBytes v

/-- Deserialize a `Vec<u64>`: read the length prefix, then that many words. -/
def deserializeVecU64 (bs : List Nat) : Option (List Nat) :=
  if 8 ≤ bs.length then
    match readU64Words (fromLEBytes (bs.take 8)) (bs.drop 8) with
    | some (ws, _) => some ws
    | none => none
  else none

/-- Every element of the list is a valid u64 value. -/
def WfU64List (v : List Nat) : Prop := ∀ x ∈ v, x < W

instance : DecidablePred WfU64List := fun v =>
  inferInstanceAs (Decidable (∀ x ∈ v, x < W))

theorem readU64Words_wordsBytes {v : List Nat} (hv : WfU64List v)
    (rest : List Nat) :
    readU64Words v.length (u64WordsBytes v ++ rest) = some (v, rest) := by
  induction v with
  | nil => simp [readU64Words, u64WordsBytes]
  | cons x xs ih =>
    have hx : x < 256 ^ 8 := by
      simpa [W] using hv x (by simp)
    have hxs : WfU64List xs := fun y hy => hv y (by simp [hy])
    simp only [List.length_cons, u64WordsBytes, readU64Words, List.append_assoc]
    rw [if_pos (by simp [toLEBytes_length])]
    rw [drop_toLEBytes_append, ih hxs, take_toLEBytes_append,
      fromLEBytes_toLEBytes_of_lt hx]

theorem deserializeVecU64_serializeVecU64 {v : List Nat}
    (hlen : v.length < W) (hv : WfU64List v) :
    deserializeVecU64 (serializeVecU64 v) = some v := by
  unfold deserializeVecU64 serializeVecU64
  rw [if_pos (by simp [toLEBytes_length])]
  rw [take_toLEBytes_append, drop_toLEBytes_append,
    fromLEBytes_toLEBytes_of_lt (by simpa [W] using hlen)]
  have h := readU64Words_wordsBytes hv []
  rw [List.append_nil] at h
  rw [h]

/-! ## Artifact types

Shallow embeddings of the external-library container types the host and guest
exchange.  Each container is represented by its coefficient contents (the
`Vec<u64>` payload that the stable binary codec encodes); the Fourier
bootstrapping key, whose payload is an array of complex doubles, is
represented by its raw encoded byte payload. -/

/-- Embeds `LweBootstrapKeyOwned<u64>`: u64 coefficient container. -/
structure LweBootstrapKey where
  data : List Nat
deriving DecidableEq

/-- Embeds `FourierLweBootstrapKey<ABox<[c64]>>`: raw encoded Fourier payload. -/
structure FourierLweBootstrapKey where
  fourierBytes : List Nat
deriving DecidableEq

/-- Embeds `LweCiphertextOwned<u64>`: mask coefficients followed by the body, as one
u64 container (the body is the last element). -/
structure LweCiphertext where
  data : List Nat
deriving DecidableEq

/-- Embeds `GlweCiphertextOwned<u64>`: u64 coefficient container. -/
structure GlweCiphertext where
  data : List Nat
deriving DecidableEq

/-- Embeds `LweSecretKeyOwned<u64>`: binary coefficient vector. -/
structure LweSecretKey where
  data : List Nat
deriving DecidableEq

def serializeLweBootstrapKey (k : LweBootstrapKey) : List Nat :=
  serializeVecU64 k.data

def deserializeLweBootstrapKey (bs : List Nat) : Option LweBootstrapKey :=
  (deserializeVecU64 bs).map LweBootstrapKey.mk

def serializeFourierLweBootstrapKey (k : FourierLweBootstrapKey) : List Nat :=
  toLEBytes 8 k.fourierBytes.length ++ k.fourierBytes

def deserializeFourierLweBootstrapKey (bs : List Nat) :
    Option FourierLweBootstrapKey :=
  if 8 ≤ bs.length then
    let len := fromLEBytes (bs.take 8)
    let rest := bs.drop 8
    if len ≤ rest.length then some ⟨rest.take len⟩ else none
  else none

def serializeLweCiphertext (c : LweCiphertext) : List Nat :=
  serializeVecU64 c.data

def deserializeLweCiphertext (bs : List Nat) : Option LweCiphertext :=
  (deserializeVecU64 bs).map LweCiphertext.mk

def serializeGlweCiphertext (c : GlweCiphertext) : List Nat :=
  serializeVecU64 c.data

def deserializeGlweCiphertext (bs : List Nat) : Option GlweCiphertext :=
  (deserializeVecU64 bs).map GlweCiphertext.mk

def serializeLweSecretKey (k : LweSecretKey) : List Nat :=
  serializeVecU64 k.data

def deserializeLweSecretKey (bs : List Nat) : Option LweSecretKey :=
  (deserializeVecU64 bs).map LweSecretKey.mk

/-- A u64 container is well formed when its length fits the u64 length prefix
and every element is a u64 value. -/
def WfVecU64 (v : List Nat) : Prop := v.length < W ∧ WfU64List v

instance : DecidablePred WfVecU64 := fun v =>
  inferInstanceAs (Decidable (v.length < W ∧ WfU64List v))

theorem deserializeVecU64_of_wf {v : List Nat} (h : WfVecU64 v) :
    deserializeVecU64 (serializeVecU64 v) = some v :=
  deserializeVecU64_serializeVecU64 h.1 h.2

theorem deserializeFourier_serializeFourier {k : FourierLweBootstrapKey}
    (h : k.fourierBytes.length < W) :
    deserializeFourierLweBootstrapKey (serializeFourierLweBootstrapKey k) =
      some k := by
  unfold deserializeFourierLweBootstrapKey serializeFourierLweBootstrapKey
  rw [if_pos (by simp [toLEBytes_length])]
  simp only [take_toLEBytes_append, drop_toLEBytes_append,
    fromLEBytes_toLEBytes_of_lt (show k.fourierBytes.length < 256 ^ 8 by
      simpa [W] using h)]
  rw [if_pos le_rfl, List.take_of_length_le le_rfl]

/-! ## Modelled FHE-library primitives

The repository calls these from the external FHE library; their source is not
vendored under src/, so they are modelled from the spec. -/

/-- Modelled from the spec: `decrypt_lwe_ciphertext` of the external FHE
library (not present under src/).  LWE decryption computes
`body - <mask, secret key>` in the native u64 modulus; the dimensions of the
key and ciphertext must agree (a mismatch is a fatal assertion in the
library, modelled as `none`). -/
def decrypt_lwe_ciphertext (sk : LweSecretKey) (ct : LweCiphertext) :
    Option Nat :=
  if sk.data.length + 1 = ct.data.length then
    some ((ct.data.getLastD 0 +
      (W - (List.zipWith (· * ·) (ct.data.take (ct.data.length - 1))
        sk.data).sum % W)) % W)
  else none

/-- Modelled from the spec: `lwe_ciphertext_cleartext_mul` of the external FHE
library (not present under src/).  Multiplies every coefficient of the input
ciphertext by the cleartext scalar (wrapping u64 arithmetic) and stores the
result in the output container, whose previous contents are overwritten. -/
def lwe_ciphertext_cleartext_mul (output input : LweCiphertext)
    (cleartext : Nat) : LweCiphertext :=
  ⟨input.data.map fun x => x * cleartext % W⟩

/-- Modelled from the spec: `SignedDecomposer::new` of the external FHE
library (not present under src/), holding a decomposition base log and level
count. -/
structure SignedDecomposer where
  base_log : Nat
  level_count : Nat
deriving DecidableEq

/-- Modelled from the spec: `SignedDecomposer::closest_representable` of the
external FHE library (not present under src/).  Rounds a u64 plaintext to its
`level_count * base_log` most significant bits (round half up, wrapping):
with base log 5 and level count 1 it rounds to the 5 MSBs, i.e. 1 padding bit
plus the 4 message bits. -/
def SignedDecomposer.closest_representable (d : SignedDecomposer)
    (input : Nat) : Nat :=
  let non_rep_bit_count := 64 - d.level_count * d.base_log
  let shift := non_rep_bit_count - 1
  let res := input / 2 ^ shift
  let res := res + 1
  let res := res / 2
  res * 2 ^ (shift + 1) % W

/-! ## Guest verifier

Embedding of src/decryption-proof/methods/guest/src/main.rs.  The guest's
journal is modelled as the list of values committed with `env::commit`; an
abort (failed deserialization, library assertion, or failed `assert_eq!`)
yields `none`, and no committed value survives an abort because `env::commit`
is only reached after the assertion succeeds. -/

/-- A value committed to the public journal: the guest commits an
`LweCiphertextOwned<u64>`; an integer commitment is also representable so that
committing the decrypted integer instead would be observable. -/
inductive JournalValue where
  | lweCt (c : LweCiphertext)
  | intVal (n : Nat)
deriving DecidableEq

/-- Guest constant: `let message_modulus = 1u64 << 4` (guest main, line 50). -/
def guest_message_modulus : Nat := 2 ^ 4

/-- Guest constant: `let delta = (1_u64 << 63) / message_modulus` (guest main,
line 51). -/
def guest_delta : Nat := 2 ^ 63 / guest_message_modulus

/-- Guest decomposer: `SignedDecomposer::new(DecompositionBaseLog(5),
DecompositionLevelCount(1))` (guest main, line 58). -/
def guest_signed_decomposer : SignedDecomposer := ⟨5, 1⟩

/-- The decode computation of the guest (lines 56-59): round the decrypted
plaintext with the signed decomposer and divide by delta. -/
def guest_decode (plaintext : Nat) : Nat :=
  guest_signed_decomposer.closest_representable plaintext / guest_delta

/-- The guest program (src/decryption-proof/methods/guest/src/main.rs): read
7 byte buffers, deserialize each into its artifact type, decrypt the PBS
ciphertext under the large secret key, decode, assert equality with the
cleartext-multiplication result, and commit the PBS ciphertext.  `none`
models an abort (panic) before any commit. -/
def guest_main (serialized_std_bootstrapping_key serialized_fourier_bsk
    serialized_lwe_ciphertext_in_clear serialized_cleartext_multiplication_result
    serialized_accumulator serialized_pbs serialized_big_lwe_sk : List Nat) :
    Option (List JournalValue) :=
  match deserializeLweBootstrapKey serialized_std_bootstrapping_key,
      deserializeFourierLweBootstrapKey serialized_fourier_bsk,
      deserializeLweCiphertext serialized_lwe_ciphertext_in_clear,
      deserializeU64 serialized_cleartext_multiplication_result,
      deserializeGlweCiphertext serialized_accumulator,
      deserializeLweCiphertext serialized_pbs,
      deserializeLweSecretKey serialized_big_lwe_sk with
  | some _std_bootstrapping_key, some _fourier_bsk, some _lwe_ciphertext_in_clear,
    some cleartext_multiplication_result, some _accumulator,
    some pbs_multiplication_ct, some big_lwe_sk =>
    match decrypt_lwe_ciphertext big_lwe_sk pbs_multiplication_ct with
    | some pbs_multiplication_plaintext =>
      let pbs_multiplication_result :=
        guest_signed_decomposer.closest_representable
          pbs_multiplication_plaintext / guest_delta
      if cleartext_multiplication_result = pbs_multiplication_result then
        some [JournalValue.lweCt pbs_multiplication_ct]
      else none
    | none => none
  | _, _, _, _, _, _, _ => none

/-! ## Host: constants, evaluator and channel

Embedding of src/decryption-proof/host/src/main.rs. -/

/-- Host constant: `let message_modulus = 1u64 << 4` (host main, line 93). -/
def host_message_modulus : Nat := 2 ^ 4

/-- Host constant: `let input_message = 3u64` (host main, line 96). -/
def host_input_message : Nat := 3

/-- Host constant: `let delta = (1_u64 << 63) / message_modulus` (host main,
line 99). -/
def host_delta : Nat := 2 ^ 63 / host_message_modulus

/-- Host decomposer (host main, lines 129-130). -/
def host_signed_decomposer : SignedDecomposer := ⟨5, 1⟩

/-- The decode computation of the host (lines 133-134). -/
def host_decode (plaintext : Nat) : Nat :=
  host_signed_decomposer.closest_representable plaintext / host_delta

/-- Host cleartext-multiplication step (host main, lines 113-120): clone the
source ciphertext into a fresh container, then run
`lwe_ciphertext_cleartext_mul` writing into that fresh copy with the source as
input; later the source (unchanged) ciphertext is passed to the PBS (line
166). -/
def hostCleartextMulStep (lwe_ciphertext_in : LweCiphertext) :
    LweCiphertext × LweCiphertext :=
  let cleartext_multiplication_ct := lwe_ciphertext_in
  let cleartext_multiplication_ct :=
    lwe_ciphertext_cleartext_mul cleartext_multiplication_ct
      lwe_ciphertext_in 2
  (lwe_ciphertext_in, cleartext_multiplication_ct)

/-- The seven artifacts the host serializes (host main, lines 174-200). -/
structure HostArtifacts where
  std_bootstrapping_key : LweBootstrapKey
  fourier_bsk : FourierLweBootstrapKey
  lwe_ciphertext_in : LweCiphertext
  cleartext_multiplication_result : Nat
  accumulator : GlweCiphertext
  pbs_multiplication_ct : LweCiphertext
  big_lwe_sk : LweSecretKey
deriving DecidableEq

/-- Which artifact a channel position carries. -/
inductive ArtifactKind where
  | stdBootstrappingKey
  | fourierBsk
  | lweCiphertextIn
  | cleartextMultiplicationResult
  | accumulator
  | pbsCiphertext
  | bigLweSk
deriving DecidableEq

/-- The host's write sequence into the `ExecutorEnv` builder (host main,
lines 219-235): each entry records which artifact the buffer serializes
(`input_data` through `input_data_7`, lines 174-200) and its byte content. -/
def hostWrites (a : HostArtifacts) : List (ArtifactKind × List Nat) :=
  [(ArtifactKind.stdBootstrappingKey,
      serializeLweBootstrapKey a.std_bootstrapping_key),
    (ArtifactKind.fourierBsk,
      serializeFourierLweBootstrapKey a.fourier_bsk),
    (ArtifactKind.lweCiphertextIn,
      serializeLweCiphertext a.lwe_ciphertext_in),
    (ArtifactKind.cleartextMultiplicationResult,
      serializeU64 a.cleartext_multiplication_result),
    (ArtifactKind.accumulator,
      serializeGlweCiphertext a.accumulator),
    (ArtifactKind.pbsCiphertext,
      serializeLweCiphertext a.pbs_multiplication_ct),
    (ArtifactKind.bigLweSk,
      serializeLweSecretKey a.big_lwe_sk)]

/-- The byte buffers of the channel, in write order. -/
def hostChannel (a : HostArtifacts) : List (List Nat) :=
  (hostWrites a).map Prod.snd

/-- The order in which the host writes artifacts (host main, lines 219-235). -/
def hostWriteOrder : List ArtifactKind :=
  [ArtifactKind.stdBootstrappingKey, ArtifactKind.fourierBsk,
    ArtifactKind.lweCiphertextIn, ArtifactKind.cleartextMultiplicationResult,
    ArtifactKind.accumulator, ArtifactKind.pbsCiphertext,
    ArtifactKind.bigLweSk]

/-- The order in which the guest deserializes artifacts (guest main, lines
25-47): the i-th `env::read` buffer is deserialized into the i-th type. -/
def guestReadOrder : List ArtifactKind :=
  [ArtifactKind.stdBootstrappingKey, ArtifactKind.fourierBsk,
    ArtifactKind.lweCiphertextIn, ArtifactKind.cleartextMultiplicationResult,
    ArtifactKind.accumulator, ArtifactKind.pbsCiphertext,
    ArtifactKind.bigLweSk]

/-- The canonical artifact order of the spec (§3): standard bootstrapping key,
Fourier bootstrapping key, source LWE ciphertext, cleartext-multiplication
decoded result, accumulator, PBS-result ciphertext, large secret key. -/
def canonicalOrder : List ArtifactKind :=
  [ArtifactKind.stdBootstrappingKey, ArtifactKind.fourierBsk,
    ArtifactKind.lweCiphertextIn, ArtifactKind.cleartextMultiplicationResult,
    ArtifactKind.accumulator, ArtifactKind.pbsCiphertext,
    ArtifactKind.bigLweSk]

/-- All seven artifacts have well-formed payloads (the values the
Builder/Evaluator produces always do: coefficients are u64 values and
container sizes fit in u64). -/
def WfHostArtifacts (a : HostArtifacts) : Prop :=
  WfVecU64 a.std_bootstrapping_key.data ∧
  a.fourier_bsk.fourierBytes.length < W ∧
  WfVecU64 a.lwe_ciphertext_in.data ∧
  a.cleartext_multiplication_result < W ∧
  WfVecU64 a.accumulator.data ∧
  WfVecU64 a.pbs_multiplication_ct.data ∧
  WfVecU64 a.big_lwe_sk.data

/-- Host evaluation from the encrypted input to the seven serialized
artifacts (host main, lines 96-200), parameterized by the externally produced
key material, the encryption of the input message and the external
programmable bootstrap (host main, lines 165-170) taken as a function of the
ciphertext it is applied to, the accumulator and the Fourier bootstrapping
key.  The `assert_eq!(6, cleartext_multiplication_result)` of line 137 is
modelled by the `if`: on failure the host aborts (`none`). -/
def hostRun (std_bootstrapping_key : LweBootstrapKey)
    (fourier_bsk : FourierLweBootstrapKey) (small_lwe_sk : LweSecretKey)
    (big_lwe_sk : LweSecretKey) (lwe_ciphertext_in : LweCiphertext)
    (accumulator : GlweCiphertext)
    (pbs : LweCiphertext → GlweCiphertext → FourierLweBootstrapKey →
      LweCiphertext) :
    Option HostArtifacts :=
  let step := hostCleartextMulStep lwe_ciphertext_in
  match decrypt_lwe_ciphertext small_lwe_sk step.2 with
  | some cleartext_multiplication_plaintext =>
    let cleartext_multiplication_result :=
      host_signed_decomposer.closest_representable
        cleartext_multiplication_plaintext / host_delta
    if 6 = cleartext_multiplication_result then
      some
        { std_bootstrapping_key := std_bootstrapping_key,
          fourier_bsk := fourier_bsk,
          lwe_ciphertext_in := step.1,
          cleartext_multiplication_result := cleartext_multiplication_result,
          accumulator := accumulator,
          pbs_multiplication_ct := pbs step.1 accumulator fourier_bsk,
          big_lwe_sk := big_lwe_sk }
    else none
  | none => none

/-! ## Host: receipt phase -/

/-- Decoding of the public journal by the host (host main, line 255):
`receipt.journal.decode::<LweCiphertextOwned<u64>>()` succeeds exactly when
the journal holds one committed LWE ciphertext. -/
def hostJournalDecode (journal : List JournalValue) : Option LweCiphertext :=
  match journal with
  | [JournalValue.lweCt c] => some c
  | _ => none

/-- Observable steps of the host's receipt phase. -/
inductive HostEvent where
  | decodedJournal
  | printedPublicOutput
  | verifiedReceipt
deriving DecidableEq

/-- The tail of the host program (host main, lines 247-265): decode the
receipt journal (`unwrap` aborts on failure), print the decoded public output,
then call `receipt.verify(HELLO_GUEST_ID)` (`unwrap` aborts on failure).  The
returned event list records, in program order, the observable steps that
executed; the second component is the program outcome (`some` output on
successful termination, `none` on abort). -/
def hostReceiptPhase (journal : List JournalValue) (verifierAccepts : Bool) :
    List HostEvent × Option LweCiphertext :=
  match hostJournalDecode journal with
  | none => ([], none)
  | some output =>
    if verifierAccepts then
      ([HostEvent.decodedJournal, HostEvent.printedPublicOutput,
          HostEvent.verifiedReceipt],
        some output)
    else
      ([HostEvent.decodedJournal, HostEvent.printedPublicOutput], none)

/-! ## Helper lemmas -/

theorem deserializeU64_serialize {x : Nat} (h : x < W) :
    deserializeU64 (serializeU64 x) = some x := by
  have hx := deserializeU64_serializeU64 h []
  rwa [List.append_nil] at hx

theorem getLastD_map (f : Nat → Nat) (l : List Nat) (d : Nat) :
    (l.map f).getLastD (f d) = f (l.getLastD d) := by
  induction l generalizing d with
  | nil => rfl
  | cons x xs ih => simp only [List.map_cons, List.getLastD_cons]; exact ih x

theorem W_pos : 0 < W := by unfold W; positivity

theorem mod_eq_of_zmodCast {a b : Nat} (h : (a : ZMod W) = (b : ZMod W)) :
    a % W = b % W :=
  (ZMod.natCast_eq_natCast_iff a b W).mp h

theorem zmodCast_W_sub_mod (a : Nat) :
    ((W - a % W : Nat) : ZMod W) = -(a : ZMod W) := by
  have hle : a % W ≤ W := le_of_lt (Nat.mod_lt _ W_pos)
  rw [Nat.cast_sub hle, ZMod.natCast_self, ZMod.natCast_mod]
  ring

theorem zipWith_mul_map_sum_cast (c : Nat) (xs ys : List Nat) :
    ((List.zipWith (· * ·) (xs.map fun x => x * c % W) ys).map
        (Nat.cast : Nat → ZMod W)).sum =
      (c : ZMod W) *
        ((List.zipWith (· * ·) xs ys).map (Nat.cast : Nat → ZMod W)).sum := by
  induction xs generalizing ys with
  | nil => simp
  | cons x xs ih =>
    cases ys with
    | nil => simp
    | cons y ys =>
      simp only [List.map_cons, List.zipWith_cons_cons, List.sum_cons,
        Nat.cast_mul]
      rw [ZMod.natCast_mod, ih ys]
      push_cast
      ring

/-- LWE decryption is linear under the modelled cleartext multiplication:
decrypting the scaled ciphertext yields the scaled plaintext (wrapping). -/
theorem decrypt_cleartext_mul (sk : LweSecretKey) (out ct : LweCiphertext)
    (c p : Nat) (h : decrypt_lwe_ciphertext sk ct = some p) :
    decrypt_lwe_ciphertext sk (lwe_ciphertext_cleartext_mul out ct c) =
      some (c * p % W) := by
  unfold decrypt_lwe_ciphertext at h
  by_cases hlen : sk.data.length + 1 = ct.data.length
  · rw [if_pos hlen] at h
    have hp := Option.some.inj h
    unfold decrypt_lwe_ciphertext lwe_ciphertext_cleartext_mul
    rw [if_pos (by simpa using hlen)]
    refine congrArg some ?_
    have hbody : ((ct.data.map fun x => x * c % W).getLastD 0) =
        ct.data.getLastD 0 * c % W := by
      have h0 : (0 : Nat) * c % W = 0 := by simp
      calc (ct.data.map fun x => x * c % W).getLastD 0
          = (ct.data.map fun x => x * c % W).getLastD (0 * c % W) := by
            rw [h0]
        _ = ct.data.getLastD 0 * c % W := getLastD_map _ ct.data 0
    have hmask : (ct.data.map fun x => x * c % W).take
        ((ct.data.map fun x => x * c % W).length - 1) =
        (ct.data.take (ct.data.length - 1)).map fun x => x * c % W := by
      rw [List.length_map, ← List.map_take]
    rw [hbody, hmask]
    apply mod_eq_of_zmodCast
    rw [← hp]
    push_cast [zmodCast_W_sub_mod, ZMod.natCast_mod]
    rw [zipWith_mul_map_sum_cast]
    ring
  · rw [if_neg hlen] at h
    exact absurd h (by simp)

/-- The decomposer with base log 5 and level count 1 rounds any value in the
half-open window of radius `2 ^ 58` around `6 * 2 ^ 59` to `6 * 2 ^ 59`. -/
theorem closest_representable_six_window {x : Nat}
    (h1 : 11 * 2 ^ 58 ≤ x) (h2 : x < 13 * 2 ^ 58) :
    (SignedDecomposer.mk 5 1).closest_representable x = 6 * 2 ^ 59 := by
  have hd1 : 11 ≤ x / 2 ^ 58 := (Nat.le_div_iff_mul_le (by positivity)).mpr h1
  have hd2 : x / 2 ^ 58 < 13 := (Nat.div_lt_iff_lt_mul (by positivity)).mpr h2
  have hmid : (x / 2 ^ 58 + 1) / 2 = 6 := by omega
  show (x / 2 ^ (64 - 1 * 5 - 1) + 1) / 2 * 2 ^ (64 - 1 * 5 - 1 + 1) % W =
    6 * 2 ^ 59
  have e58 : 64 - 1 * 5 - 1 = 58 := by norm_num
  rw [e58, hmid]
  unfold W
  norm_num

theorem guest_delta_eq : guest_delta = 2 ^ 59 := by
  unfold guest_delta guest_message_modulus
  norm_num

theorem guest_decode_six_window {x : Nat}
    (h1 : 11 * 2 ^ 58 ≤ x) (h2 : x < 13 * 2 ^ 58) : guest_decode x = 6 := by
  unfold guest_decode
  rw [show guest_signed_decomposer = SignedDecomposer.mk 5 1 from rfl,
    closest_representable_six_window h1 h2, guest_delta_eq]
  norm_num

theorem roundtrip_lweBootstrapKey {k : LweBootstrapKey}
    (h : WfVecU64 k.data) :
    deserializeLweBootstrapKey (serializeLweBootstrapKey k) = some k := by
  unfold deserializeLweBootstrapKey serializeLweBootstrapKey
  rw [deserializeVecU64_of_wf h]
  rfl

theorem roundtrip_lweCiphertext {c : LweCiphertext} (h : WfVecU64 c.data) :
    deserializeLweCiphertext (serializeLweCiphertext c) = some c := by
  unfold deserializeLweCiphertext serializeLweCiphertext
  rw [deserializeVecU64_of_wf h]
  rfl

theorem roundtrip_glweCiphertext {c : GlweCiphertext} (h : WfVecU64 c.data) :
    deserializeGlweCiphertext (serializeGlweCiphertext c) = some c := by
  unfold deserializeGlweCiphertext serializeGlweCiphertext
  rw [deserializeVecU64_of_wf h]
  rfl

theorem roundtrip_lweSecretKey {k : LweSecretKey} (h : WfVecU64 k.data) :
    deserializeLweSecretKey (serializeLweSecretKey k) = some k := by
  unfold deserializeLweSecretKey serializeLweSecretKey
  rw [deserializeVecU64_of_wf h]
  rfl

instance : DecidablePred WfHostArtifacts := fun a =>
  inferInstanceAs (Decidable (WfVecU64 a.std_bootstrapping_key.data ∧
    a.fourier_bsk.fourierBytes.length < W ∧
    WfVecU64 a.lwe_ciphertext_in.data ∧
    a.cleartext_multiplication_result < W ∧
    WfVecU64 a.accumulator.data ∧
    WfVecU64 a.pbs_multiplication_ct.data ∧
    WfVecU64 a.big_lwe_sk.data))

/-- A small concrete artifact bundle used to instantiate the hypotheses of
the proved theorems: the source ciphertext encrypts `3 * delta` and the PBS
ciphertext encrypts `6 * delta`, both noiselessly, under the length-1 all-zero
secret key. -/
def exampleArtifacts : HostArtifacts where
  std_bootstrapping_key := ⟨[1, 2]⟩
  fourier_bsk := ⟨[3, 4, 5]⟩
  lwe_ciphertext_in := ⟨[0, 3 * 2 ^ 59]⟩
  cleartext_multiplication_result := 6
  accumulator := ⟨[7]⟩
  pbs_multiplication_ct := ⟨[0, 6 * 2 ^ 59]⟩
  big_lwe_sk := ⟨[0]⟩

/-! ## Claims -/

/-- C1: the host writes exactly 7 serialized artifact buffers to the
execution-environment channel in the canonical order (standard bootstrapping
key, Fourier bootstrapping key, source LWE ciphertext,
cleartext-multiplication decoded result, accumulator, PBS-result ciphertext,
large secret key), the guest reads exactly 7 buffers in that identical order,
and deserializing the i-th buffer into the i-th artifact's type recovers the
i-th artifact; the write order equals the read order at every position. -/
theorem channel_write_order_eq_read_order :
    ∀ a : HostArtifacts, WfHostArtifacts a →
      hostWriteOrder = canonicalOrder ∧ guestReadOrder = canonicalOrder ∧
      hostWriteOrder = guestReadOrder ∧
      (hostWrites a).map Prod.fst = hostWriteOrder ∧
      (hostChannel a).length = 7 ∧ guestReadOrder.length = 7 ∧
      deserializeLweBootstrapKey ((hostChannel a).getD 0 []) =
        some a.std_bootstrapping_key ∧
      deserializeFourierLweBootstrapKey ((hostChannel a).getD 1 []) =
        some a.fourier_bsk ∧
      deserializeLweCiphertext ((hostChannel a).getD 2 []) =
        some a.lwe_ciphertext_in ∧
      deserializeU64 ((hostChannel a).getD 3 []) =
        some a.cleartext_multiplication_result ∧
      deserializeGlweCiphertext ((hostChannel a).getD 4 []) =
        some a.accumulator ∧
      deserializeLweCiphertext ((hostChannel a).getD 5 []) =
        some a.pbs_multiplication_ct ∧
      deserializeLweSecretKey ((hostChannel a).getD 6 []) =
        some a.big_lwe_sk := by
  intro a hw
  obtain ⟨h1, h2, h3, h4, h5, h6, h7⟩ := hw
  exact ⟨rfl, rfl, rfl, rfl, rfl, rfl, roundtrip_lweBootstrapKey h1,
    deserializeFourier_serializeFourier h2, roundtrip_lweCiphertext h3,
    deserializeU64_serialize h4, roundtrip_glweCiphertext h5,
    roundtrip_lweCiphertext h6, roundtrip_lweSecretKey h7⟩

theorem channel_write_order_eq_read_order_witness :
    WfHostArtifacts exampleArtifacts ∧ hostWriteOrder = guestReadOrder ∧
      (hostChannel exampleArtifacts).length = 7 ∧
      deserializeU64 ((hostChannel exampleArtifacts).getD 3 []) =
        some exampleArtifacts.cleartext_multiplication_result := by
  have hw : WfHostArtifacts exampleArtifacts := by decide
  have h := channel_write_order_eq_read_order exampleArtifacts hw
  exact ⟨hw, h.2.2.1, h.2.2.2.2.1, h.2.2.2.2.2.2.2.2.2.1⟩

/-- C4: for every artifact bundle the Builder/Evaluator can produce (any
well-formed values of the 7 artifact types), deserializing each serialized
byte buffer yields a value equal to the original:
`deserialize(serialize(x)) = x`. -/
theorem serialize_then_deserialize_id :
    ∀ a : HostArtifacts, WfHostArtifacts a →
      deserializeLweBootstrapKey
          (serializeLweBootstrapKey a.std_bootstrapping_key) =
        some a.std_bootstrapping_key ∧
      deserializeFourierLweBootstrapKey
          (serializeFourierLweBootstrapKey a.fourier_bsk) =
        some a.fourier_bsk ∧
      deserializeLweCiphertext (serializeLweCiphertext a.lwe_ciphertext_in) =
        some a.lwe_ciphertext_in ∧
      deserializeU64 (serializeU64 a.cleartext_multiplication_result) =
        some a.cleartext_multiplication_result ∧
      deserializeGlweCiphertext (serializeGlweCiphertext a.accumulator) =
        some a.accumulator ∧
      deserializeLweCiphertext
          (serializeLweCiphertext a.pbs_multiplication_ct) =
        some a.pbs_multiplication_ct ∧
      deserializeLweSecretKey (serializeLweSecretKey a.big_lwe_sk) =
        some a.big_lwe_sk := by
  intro a hw
  obtain ⟨h1, h2, h3, h4, h5, h6, h7⟩ := hw
  exact ⟨roundtrip_lweBootstrapKey h1, deserializeFourier_serializeFourier h2,
    roundtrip_lweCiphertext h3, deserializeU64_serialize h4,
    roundtrip_glweCiphertext h5, roundtrip_lweCiphertext h6,
    roundtrip_lweSecretKey h7⟩

theorem serialize_then_deserialize_id_witness :
    WfHostArtifacts exampleArtifacts ∧
      deserializeLweCiphertext
          (serializeLweCiphertext exampleArtifacts.lwe_ciphertext_in) =
        some exampleArtifacts.lwe_ciphertext_in ∧
      deserializeLweSecretKey
          (serializeLweSecretKey exampleArtifacts.big_lwe_sk) =
        some exampleArtifacts.big_lwe_sk := by
  have hw : WfHostArtifacts exampleArtifacts := by decide
  have h := serialize_then_deserialize_id exampleArtifacts hw
  exact ⟨hw, h.2.2.1, h.2.2.2.2.2.2⟩

/-- C5: the guest's decode computation equals the host's: both fix
`message_modulus = 2 ^ 4` and `delta = 2 ^ 63 / message_modulus`, both round
with a `SignedDecomposer` of base log 5 and level count 1, both divide the
rounded plaintext by delta, and the two decode functions agree on every
plaintext. -/
theorem guest_decode_eq_host_decode :
    host_message_modulus = 2 ^ 4 ∧ guest_message_modulus = 2 ^ 4 ∧
    host_delta = 2 ^ 63 / host_message_modulus ∧
    guest_delta = 2 ^ 63 / guest_message_modulus ∧
    host_signed_decomposer = SignedDecomposer.mk 5 1 ∧
    guest_signed_decomposer = SignedDecomposer.mk 5 1 ∧
    (∀ plaintext : Nat,
      host_decode plaintext =
        host_signed_decomposer.closest_representable plaintext /
          host_delta) ∧
    (∀ plaintext : Nat,
      guest_decode plaintext =
        guest_signed_decomposer.closest_representable plaintext /
          guest_delta) ∧
    ∀ plaintext : Nat, host_decode plaintext = guest_decode plaintext :=
  ⟨rfl, rfl, rfl, rfl, rfl, rfl, fun _ => rfl, fun _ => rfl, fun _ => rfl⟩

/-- C2: whenever the cleartext-multiplication integer received over the
channel differs from the integer the guest recomputes by decrypting the PBS
ciphertext under the large secret key, rounding and dividing by delta, the
guest aborts at the equality assertion and nothing is committed to the public
journal (the commit follows the assertion, so no commit precedes or survives
the failure). -/
theorem guest_mismatch_aborts :
    ∀ (b1 b2 b3 b4 b5 b6 b7 : List Nat) (res : Nat) (pbs : LweCiphertext)
      (sk : LweSecretKey) (pt : Nat),
      deserializeU64 b4 = some res →
      deserializeLweCiphertext b6 = some pbs →
      deserializeLweSecretKey b7 = some sk →
      decrypt_lwe_ciphertext sk pbs = some pt →
      res ≠ guest_decode pt →
      guest_main b1 b2 b3 b4 b5 b6 b7 = none := by
  intro b1 b2 b3 b4 b5 b6 b7 res pbs sk pt h4 h6 h7 hdec hne
  have hne' : res ≠
      guest_signed_decomposer.closest_representable pt / guest_delta := hne
  unfold guest_main
  rw [h4, h6, h7]
  cases deserializeLweBootstrapKey b1 <;>
    cases deserializeFourierLweBootstrapKey b2 <;>
      cases deserializeLweCiphertext b3 <;>
        cases deserializeGlweCiphertext b5 <;>
          simp [hdec, hne']

theorem guest_mismatch_aborts_witness :
    guest_main [] [] [] (toLEBytes 8 7) [] (serializeVecU64 [0, 6 * 2 ^ 59])
      (serializeVecU64 [0]) = none :=
  guest_mismatch_aborts [] [] [] (toLEBytes 8 7) []
    (serializeVecU64 [0, 6 * 2 ^ 59]) (serializeVecU64 [0]) 7
    ⟨[0, 6 * 2 ^ 59]⟩ ⟨[0]⟩ (6 * 2 ^ 59) (by decide) (by decide) (by decide)
    (by decide) (by decide)

/-- C3: on successful equality the guest commits exactly one artifact to the
public journal, and that artifact is the PBS-result LWE ciphertext (not the
decrypted integer); the host decodes that journal as exactly one LWE
ciphertext, recovering the committed ciphertext. -/
theorem guest_commits_exactly_pbs_ciphertext :
    ∀ (b1 b2 b3 b4 b5 b6 b7 : List Nat) (k : LweBootstrapKey)
      (f : FourierLweBootstrapKey) (ctin : LweCiphertext) (res : Nat)
      (acc : GlweCiphertext) (pbs : LweCiphertext) (sk : LweSecretKey)
      (pt : Nat),
      deserializeLweBootstrapKey b1 = some k →
      deserializeFourierLweBootstrapKey b2 = some f →
      deserializeLweCiphertext b3 = some ctin →
      deserializeU64 b4 = some res →
      deserializeGlweCiphertext b5 = some acc →
      deserializeLweCiphertext b6 = some pbs →
      deserializeLweSecretKey b7 = some sk →
      decrypt_lwe_ciphertext sk pbs = some pt →
      res = guest_decode pt →
      guest_main b1 b2 b3 b4 b5 b6 b7 = some [JournalValue.lweCt pbs] ∧
      (∀ j, guest_main b1 b2 b3 b4 b5 b6 b7 = some j → j.length = 1) ∧
      hostJournalDecode [JournalValue.lweCt pbs] = some pbs := by
  intro b1 b2 b3 b4 b5 b6 b7 k f ctin res acc pbs sk pt h1 h2 h3 h4 h5 h6 h7
    hdec heq
  have heq' : res =
      guest_signed_decomposer.closest_representable pt / guest_delta := heq
  have hmain : guest_main b1 b2 b3 b4 b5 b6 b7 =
      some [JournalValue.lweCt pbs] := by
    unfold guest_main
    rw [h1, h2, h3, h4, h5, h6, h7]
    simp [hdec, heq']
  refine ⟨hmain, ?_, rfl⟩
  intro j hj
  rw [hmain] at hj
  cases hj
  rfl

theorem guest_commits_exactly_pbs_ciphertext_witness :
    guest_main (serializeVecU64 [1, 2])
        (serializeFourierLweBootstrapKey ⟨[3, 4, 5]⟩)
        (serializeVecU64 [0, 3 * 2 ^ 59]) (toLEBytes 8 6)
        (serializeVecU64 [7]) (serializeVecU64 [0, 6 * 2 ^ 59])
        (serializeVecU64 [0]) =
      some [JournalValue.lweCt ⟨[0, 6 * 2 ^ 59]⟩] :=
  (guest_commits_exactly_pbs_ciphertext (serializeVecU64 [1, 2])
    (serializeFourierLweBootstrapKey ⟨[3, 4, 5]⟩)
    (serializeVecU64 [0, 3 * 2 ^ 59]) (toLEBytes 8 6) (serializeVecU64 [7])
    (serializeVecU64 [0, 6 * 2 ^ 59]) (serializeVecU64 [0]) ⟨[1, 2]⟩
    ⟨[3, 4, 5]⟩ ⟨[0, 3 * 2 ^ 59]⟩ 6 ⟨[7]⟩ ⟨[0, 6 * 2 ^ 59]⟩ ⟨[0]⟩ (6 * 2 ^ 59)
    (by decide) (by decide) (by decide) (by decide) (by decide) (by decide)
    (by decide) (by decide) (by decide)).1

/-- C10: the guest's verdict and committed journal value depend only on the
cleartext-multiplication integer, the PBS ciphertext and the large secret
key: any two runs whose seven buffers all deserialize successfully and that
agree on those three artifacts reach the same assert outcome and commit the
same journal value, regardless of the bootstrapping-key, source-ciphertext
and accumulator buffers, which are deserialized but never used. -/
theorem guest_output_depends_only_on_three_artifacts :
    ∀ (b1 b2 b3 b4 b5 b6 b7 c1 c2 c3 c4 c5 c6 c7 : List Nat)
      (k k' : LweBootstrapKey) (f f' : FourierLweBootstrapKey)
      (ctin ctin' : LweCiphertext) (acc acc' : GlweCiphertext) (res : Nat)
      (pbs : LweCiphertext) (sk : LweSecretKey),
      deserializeLweBootstrapKey b1 = some k →
      deserializeLweBootstrapKey c1 = some k' →
      deserializeFourierLweBootstrapKey b2 = some f →
      deserializeFourierLweBootstrapKey c2 = some f' →
      deserializeLweCiphertext b3 = some ctin →
      deserializeLweCiphertext c3 = some ctin' →
      deserializeU64 b4 = some res →
      deserializeU64 c4 = some res →
      deserializeGlweCiphertext b5 = some acc →
      deserializeGlweCiphertext c5 = some acc' →
      deserializeLweCiphertext b6 = some pbs →
      deserializeLweCiphertext c6 = some pbs →
      deserializeLweSecretKey b7 = some sk →
      deserializeLweSecretKey c7 = some sk →
      guest_main b1 b2 b3 b4 b5 b6 b7 = guest_main c1 c2 c3 c4 c5 c6 c7 := by
  intro b1 b2 b3 b4 b5 b6 b7 c1 c2 c3 c4 c5 c6 c7 k k' f f' ctin ctin' acc
    acc' res pbs sk hb1 hc1 hb2 hc2 hb3 hc3 hb4 hc4 hb5 hc5 hb6 hc6 hb7 hc7
  unfold guest_main
  rw [hb1, hc1, hb2, hc2, hb3, hc3, hb4, hc4, hb5, hc5, hb6, hc6, hb7, hc7]

theorem guest_output_depends_only_on_three_artifacts_witness :
    guest_main (serializeVecU64 [1, 2])
        (serializeFourierLweBootstrapKey ⟨[3, 4, 5]⟩)
        (serializeVecU64 [0, 3 * 2 ^ 59]) (toLEBytes 8 6)
        (serializeVecU64 [7]) (serializeVecU64 [0, 6 * 2 ^ 59])
        (serializeVecU64 [0]) =
      guest_main (serializeVecU64 [9])
        (serializeFourierLweBootstrapKey ⟨[]⟩) (serializeVecU64 [5, 5, 5])
        (toLEBytes 8 6) (serializeVecU64 [])
        (serializeVecU64 [0, 6 * 2 ^ 59]) (serializeVecU64 [0]) :=
  guest_output_depends_only_on_three_artifacts (serializeVecU64 [1, 2])
    (serializeFourierLweBootstrapKey ⟨[3, 4, 5]⟩)
    (serializeVecU64 [0, 3 * 2 ^ 59]) (toLEBytes 8 6) (serializeVecU64 [7])
    (serializeVecU64 [0, 6 * 2 ^ 59]) (serializeVecU64 [0])
    (serializeVecU64 [9]) (serializeFourierLweBootstrapKey ⟨[]⟩)
    (serializeVecU64 [5, 5, 5]) (toLEBytes 8 6) (serializeVecU64 [])
    (serializeVecU64 [0, 6 * 2 ^ 59]) (serializeVecU64 [0]) ⟨[1, 2]⟩ ⟨[9]⟩
    ⟨[3, 4, 5]⟩ ⟨[]⟩ ⟨[0, 3 * 2 ^ 59]⟩ ⟨[5, 5, 5]⟩ ⟨[7]⟩ ⟨[]⟩ 6
    ⟨[0, 6 * 2 ^ 59]⟩ ⟨[0]⟩ (by decide) (by decide) (by decide) (by decide)
    (by decide) (by decide) (by decide) (by decide) (by decide) (by decide)
    (by decide) (by decide) (by decide) (by decide)

/-- C6: for the fixed input message 3 and the fixed scheme parameters, the
cleartext-multiplication path (encrypt `3 * delta`, multiply by cleartext 2,
decrypt, round, divide by delta) and the PBS path (bootstrap with the
`x ↦ 2x` accumulator, decrypt under the large secret key, round, divide by
delta) both decode to 6.  The external encryption and bootstrap are
spec-modelled by noise hypotheses: the source ciphertext decrypts to
`3 * delta` up to noise below `2 ^ 57`, and the PBS output decrypts to
`2 * 3 * delta` up to nominal noise below `2 ^ 58`. -/
theorem both_paths_decode_to_six :
    ∀ (small_lwe_sk big_lwe_sk : LweSecretKey)
      (lwe_ciphertext_in pbs_multiplication_ct : LweCiphertext) (p q : Nat),
      decrypt_lwe_ciphertext small_lwe_sk lwe_ciphertext_in = some p →
      3 * host_delta - 2 ^ 57 ≤ p → p < 3 * host_delta + 2 ^ 57 →
      decrypt_lwe_ciphertext big_lwe_sk pbs_multiplication_ct = some q →
      2 * 3 * host_delta - 2 ^ 58 ≤ q → q < 2 * 3 * host_delta + 2 ^ 58 →
      (decrypt_lwe_ciphertext small_lwe_sk
          ((hostCleartextMulStep lwe_ciphertext_in).2) =
          some (2 * p % W) ∧
        host_decode (2 * p % W) = 6) ∧
      guest_decode q = 6 := by
  intro ssk bsk ctin pbs p q hdecp hp1 hp2 hdecq hq1 hq2
  have hδ : host_delta = 2 ^ 59 := by
    unfold host_delta host_message_modulus
    norm_num
  rw [hδ] at hp1 hp2 hq1 hq2
  have hmul := decrypt_cleartext_mul ssk ctin ctin 2 p hdecp
  have h2p : 2 * p % W = 2 * p := Nat.mod_eq_of_lt (by unfold W; omega)
  refine ⟨⟨hmul, ?_⟩, ?_⟩
  · have hhg : host_decode (2 * p % W) = guest_decode (2 * p % W) := rfl
    rw [hhg, h2p]
    exact guest_decode_six_window (by omega) (by omega)
  · exact guest_decode_six_window (by omega) (by omega)

theorem both_paths_decode_to_six_witness :
    (decrypt_lwe_ciphertext ⟨[0]⟩
        ((hostCleartextMulStep ⟨[0, 3 * 2 ^ 59]⟩).2) =
        some (2 * (3 * 2 ^ 59) % W) ∧
      host_decode (2 * (3 * 2 ^ 59) % W) = 6) ∧
      guest_decode (6 * 2 ^ 59) = 6 :=
  both_paths_decode_to_six ⟨[0]⟩ ⟨[0]⟩ ⟨[0, 3 * 2 ^ 59]⟩ ⟨[0, 6 * 2 ^ 59]⟩
    (3 * 2 ^ 59) (6 * 2 ^ 59) (by decide) (by decide) (by decide) (by decide)
    (by decide) (by decide)

/-- C9: the cleartext multiplication leaves the source LWE ciphertext
unchanged — the scalar multiplication by 2 writes into a fresh clone — so in
any successful host run the ciphertext consumed by the programmable bootstrap
and the ciphertext serialized as the third channel buffer are bit-for-bit the
original encryption, not the scaled ciphertext. -/
theorem cleartext_mul_leaves_source_unchanged :
    ∀ (std_bsk : LweBootstrapKey) (fbsk : FourierLweBootstrapKey)
      (small_lwe_sk big_lwe_sk : LweSecretKey)
      (lwe_ciphertext_in : LweCiphertext) (accumulator : GlweCiphertext)
      (pbs : LweCiphertext → GlweCiphertext → FourierLweBootstrapKey →
        LweCiphertext) (a : HostArtifacts),
      hostRun std_bsk fbsk small_lwe_sk big_lwe_sk lwe_ciphertext_in
          accumulator pbs = some a →
      a.lwe_ciphertext_in = lwe_ciphertext_in ∧
      a.pbs_multiplication_ct = pbs lwe_ciphertext_in accumulator fbsk ∧
      (hostChannel a).getD 2 [] = serializeLweCiphertext lwe_ciphertext_in ∧
      ((hostCleartextMulStep lwe_ciphertext_in).2 ≠ lwe_ciphertext_in →
        a.lwe_ciphertext_in ≠ (hostCleartextMulStep lwe_ciphertext_in).2) := by
  intro std_bsk fbsk ssk bsk ctin acc pbs a h
  simp only [hostRun] at h
  split at h
  next p heq =>
    split at h
    next h6 =>
      cases h
      exact ⟨rfl, rfl, rfl, fun hne he => hne he.symm⟩
    next h6 => exact absurd h (by simp)
  next heq => exact absurd h (by simp)

theorem cleartext_mul_leaves_source_unchanged_witness :
    exampleArtifacts.lwe_ciphertext_in = (⟨[0, 3 * 2 ^ 59]⟩ : LweCiphertext) ∧
    exampleArtifacts.lwe_ciphertext_in ≠
      (hostCleartextMulStep ⟨[0, 3 * 2 ^ 59]⟩).2 := by
  have h := cleartext_mul_leaves_source_unchanged ⟨[1, 2]⟩ ⟨[3, 4, 5]⟩ ⟨[0]⟩
    ⟨[0]⟩ ⟨[0, 3 * 2 ^ 59]⟩ ⟨[7]⟩ (fun _ _ _ => ⟨[0, 6 * 2 ^ 59]⟩)
    exampleArtifacts (by decide)
  exact ⟨h.1, h.2.2.2 (by decide)⟩

/-- C7 counterexample: with a rejecting verifier the host still prints the
decoded journal output — the print (host main, line 259) precedes the
`receipt.verify` call (lines 261-263) — and only then aborts: the decoded
public output is reported although the verifier never accepted. -/
theorem output_printed_before_verification :
    HostEvent.printedPublicOutput ∈
      (hostReceiptPhase [JournalValue.lweCt ⟨[0, 0]⟩] false).1 ∧
    (hostReceiptPhase [JournalValue.lweCt ⟨[0, 0]⟩] false).2 = none ∧
    HostEvent.verifiedReceipt ∉
      (hostReceiptPhase [JournalValue.lweCt ⟨[0, 0]⟩] false).1 := by
  decide

/-- C7 (amended): verification gates successful completion — on verifier
rejection the host aborts and never returns a public output, and a returned
output implies the verifier accepted — but the decoded journal output is
printed before the verifier is invoked, not after it accepts. -/
theorem verification_gates_completion :
    ∀ (journal : List JournalValue) (verifierAccepts : Bool),
      (verifierAccepts = false →
        (hostReceiptPhase journal verifierAccepts).2 = none) ∧
      (∀ output,
        (hostReceiptPhase journal verifierAccepts).2 = some output →
        verifierAccepts = true ∧
        HostEvent.verifiedReceipt ∈
          (hostReceiptPhase journal verifierAccepts).1 ∧
        hostJournalDecode journal = some output) := by
  intro journal accepts
  unfold hostReceiptPhase
  cases h : hostJournalDecode journal with
  | none => simp
  | some c => cases accepts <;> simp

theorem verification_gates_completion_witness :
    (hostReceiptPhase [JournalValue.lweCt ⟨[0, 1]⟩] false).2 = none :=
  (verification_gates_completion [JournalValue.lweCt ⟨[0, 1]⟩] false).1 rfl

/-- C8 counterexample: the 7th buffer the host writes to the channel is the
direct serialization of the large secret key's binary coefficient vector —
a secret key does cross the trust boundary. -/
theorem secret_key_serialized_to_channel :
    (hostChannel exampleArtifacts).getD 6 [] =
      serializeLweSecretKey exampleArtifacts.big_lwe_sk ∧
    serializeLweSecretKey exampleArtifacts.big_lwe_sk =
      serializeVecU64 exampleArtifacts.big_lwe_sk.data :=
  ⟨rfl, rfl⟩

/-- C8 (amended): the first six channel buffers carry only derived artifacts
(bootstrapping keys, ciphertexts, the decoded integer, the accumulator) and
neither the small secret key nor the GLWE secret key is ever written; the
seventh buffer, however, is the direct serialization of the large secret
key's coefficient vector, as the canonical order itself requires. -/
theorem only_seventh_buffer_carries_secret_key :
    ∀ a : HostArtifacts,
      (hostWrites a).map Prod.fst = canonicalOrder ∧
      ((hostWrites a).getD 6 (ArtifactKind.bigLweSk, [])).2 =
        serializeLweSecretKey a.big_lwe_sk ∧
      ∀ k ∈ hostWriteOrder.take 6, k ≠ ArtifactKind.bigLweSk := by
  intro a
  exact ⟨rfl, rfl, by decide⟩

theorem only_seventh_buffer_carries_secret_key_witness :
    ((hostWrites exampleArtifacts).getD 6 (ArtifactKind.bigLweSk, [])).2 =
      serializeLweSecretKey exampleArtifacts.big_lwe_sk ∧
    ArtifactKind.stdBootstrappingKey ≠ ArtifactKind.bigLweSk := by
  have h := only_seventh_buffer_carries_secret_key exampleArtifacts
  exact ⟨h.2.1, h.2.2 ArtifactKind.stdBootstrappingKey (by decide) ⟩

end ZkFHE
